import Mathlib

/-!
Verification of the torchmd force engine (src/torchmd/forces.py) against its
natural-language specification.

Shallow embedding conventions:
* a 3-vector (one row of an atom-position or force tensor) is a function
  `Fin 3 → ℝ`;
* atom positions are a total map `ℕ → Vec3` (the source indexes tensors with
  atom ids; index validity is a precondition of the source API);
* float tensors are modelled over ℝ; `torch.round` is modelled by `round`
  (they differ only in half-way tie-breaking, which no claim depends on);
* boolean tensor masks over real comparisons use classical decidability
  (`maskFilter`);
* CUDA/disk placement only changes which code path of `Forces.compute` and
  `Forces._make_indeces` runs; the paths themselves are embedded as pure
  functions with the successive free-memory telemetry readings passed in as a
  list of chunk sizes, and Python exceptions (`raise`) modelled by
  `Except.error`.
-/

/-- A row of a `[N,3]` tensor. -/
def Vec3 : Type := Fin 3 → ℝ

noncomputable instance : AddCommGroup Vec3 := Pi.addCommGroup

@[simp] lemma zero_vec_apply (i : Fin 3) : (0 : Vec3) i = 0 := rfl

@[simp] lemma add_vec_apply (u v : Vec3) (i : Fin 3) : (u + v) i = u i + v i := rfl

@[simp] lemma neg_vec_apply (v : Vec3) (i : Fin 3) : (-v) i = -(v i) := rfl

@[simp] lemma sub_vec_apply (u v : Vec3) (i : Fin 3) : (u - v) i = u i - v i := rfl

/-- Concrete vector literal, used for test inputs. -/
def mkVec (a b c : ℝ) : Vec3 := fun i => if i = 0 then a else if i = 1 then b else c

/-- `torch.sum(u * v, dim=1)` for one row: the Euclidean dot product. -/
def vdot (u v : Vec3) : ℝ := u 0 * v 0 + u 1 * v 1 + u 2 * v 2

/-- `torch.norm(v, dim=1)` for one row: the Euclidean norm. -/
noncomputable def vnorm (v : Vec3) : ℝ := Real.sqrt (v 0 * v 0 + v 1 * v 1 + v 2 * v 2)

/-- `torch.cross(u, v, dim=1)` for one row. -/
def vcross (u v : Vec3) : Vec3 :=
  mkVec (u 1 * v 2 - u 2 * v 1) (u 2 * v 0 - u 0 * v 2) (u 0 * v 1 - u 1 * v 0)

/-- An atom-index pair, one row of a `[P,2]` index tensor. -/
abbrev AtomPair : Type := ℕ × ℕ

/-- The guard of `wrap_dist` (forces.py line 1202): `box is None or
torch.all(box == 0)`. -/
def boxNoneOrZero (box : Option Vec3) : Prop :=
  match box with
  | none => True
  | some b => b 0 = 0 ∧ b 1 = 0 ∧ b 2 = 0

open Classical in
/-- `wrap_dist` (forces.py lines 1201-1206): minimum-image wrapping of a
displacement, per axis, unless the box is absent or all-zero. -/
noncomputable def wrap_dist (d : Vec3) (box : Option Vec3) : Vec3 :=
  if boxNoneOrZero box then d
  else
    match box with
    | none => d
    | some b => fun i => d i - b i * ((round (d i / b i) : ℤ) : ℝ)

/-- `calculate_distances` (forces.py lines 1209-1213): per pair, the wrapped
displacement `pos[p.1] - pos[p.2]`, its norm and the unit vector. -/
noncomputable def calculate_distances (pos : ℕ → Vec3) (idx : List AtomPair)
    (box : Option Vec3) : List (ℝ × Vec3 × Vec3) :=
  idx.map fun p =>
    let dv := wrap_dist (pos p.1 - pos p.2) box
    let d := vnorm dv
    (d, fun i => dv i / d, dv)

/-- The distance `calculate_distances` assigns to a single pair. -/
noncomputable def pairDist (pos : ℕ → Vec3) (box : Option Vec3) (p : AtomPair) : ℝ :=
  vnorm (wrap_dist (pos p.1 - pos p.2) box)

open Classical in
/-- Spec-side minimum-image displacement, written from the words of claim C1:
the raw difference is wrapped per axis by `raw - box * round(raw / box)`
whenever the box is present and not all-zero, and left unwrapped when the box
is absent or all-zero. -/
noncomputable def minImageSpec (d : Vec3) (box : Option Vec3) : Vec3 :=
  match box with
  | none => d
  | some b =>
    if b 0 = 0 ∧ b 1 = 0 ∧ b 2 = 0 then d
    else fun i => d i - b i * ((round (d i / b i) : ℤ) : ℝ)

lemma wrap_dist_eq_minImageSpec (d : Vec3) (box : Option Vec3) :
    wrap_dist d box = minImageSpec d box := by
  cases box with
  | none => simp [wrap_dist, minImageSpec, boxNoneOrZero]
  | some b =>
    by_cases h : b 0 = 0 ∧ b 1 = 0 ∧ b 2 = 0
    · simp [wrap_dist, minImageSpec, boxNoneOrZero, h]
    · simp [wrap_dist, minImageSpec, boxNoneOrZero, h]

/-- C1: for every position map, pair list and diagonal box,
`calculate_distances` returns, for each pair, the difference
`pos[p.1] - pos[p.2]` wrapped per axis by `raw - box * round(raw / box)` when
the box is present and not all-zero (unwrapped when absent or all-zero),
together with `dist = norm raw` and `unit = raw / dist`. -/
theorem c1_calculate_distances (pos : ℕ → Vec3) (idx : List AtomPair)
    (box : Option Vec3) :
    calculate_distances pos idx box =
      idx.map (fun p =>
        let raw := minImageSpec (pos p.1 - pos p.2) box
        (vnorm raw, fun i => raw i / vnorm raw, raw)) := by
  unfold calculate_distances
  refine List.map_congr_left ?_
  intro p _
  simp only [wrap_dist_eq_minImageSpec]

open Classical in
/-- Boolean-mask selection of the rows of a tensor/array by a predicate on
each row (the `arr[mask]` idiom used by `_filter_by_cutoff` and
`_neighbor_verlet_list`). -/
noncomputable def maskFilter (P : α → Prop) : List α → List α
  | [] => []
  | a :: l => if P a then a :: maskFilter P l else maskFilter P l

lemma maskFilter_nil (P : α → Prop) : maskFilter P [] = [] := rfl

lemma maskFilter_cons_pos (P : α → Prop) (a : α) (l : List α) (h : P a) :
    maskFilter P (a :: l) = a :: maskFilter P l := by
  simp [maskFilter, h]

lemma maskFilter_cons_neg (P : α → Prop) (a : α) (l : List α) (h : ¬ P a) :
    maskFilter P (a :: l) = maskFilter P l := by
  simp [maskFilter, h]

/-! ## Candidate-pair builder (`Forces._make_indeces`, forces.py 1119-1198)

Strategy 1/2 (`fmatrix` in RAM, result tensor on the device or, after a CUDA
allocation failure, on the host) both materialise the same index list
`ava_idx_i`; only its placement differs.  Strategy 3 (MemoryError fallback)
pages the boolean matrix by row blocks sized from free host memory and
appends each block's surviving pairs to the on-disk table.
-/

/-- Strategies 1 and 2 (forces.py 1124-1139): full boolean matrix, both
orientations of each excluded pair cleared, strict upper triangle kept
(`np.triu(fmatrix, +1)`), surviving index pairs listed in row-major order
(`np.where`). -/
def makeIdxFull (natoms : ℕ) (excl : List AtomPair) : List AtomPair :=
  (List.range natoms).flatMap fun i =>
    (List.range natoms).filterMap fun j =>
      if i + 1 ≤ j ∧ ¬((i, j) ∈ excl ∨ (j, i) ∈ excl) then some (i, j) else none

/-- Lexicographic order on index pairs:
`np.lexsort((excludepairs[:,1], excludepairs[:,0]))` sorts by first atom
index, then by second. -/
def lexLe (a b : AtomPair) : Bool :=
  decide (a.1 < b.1 ∨ (a.1 = b.1 ∧ a.2 ≤ b.2))

def insertLex (x : AtomPair) : List AtomPair → List AtomPair
  | [] => [x]
  | y :: ys => if lexLe x y then x :: y :: ys else y :: insertLex x ys

def lexSort (l : List AtomPair) : List AtomPair := l.foldr insertLex []

/-- The `for j in range(m, l_excludepairs)` scan (forces.py 1164-1172): the
new value of `m` is the first index `j ≥ m` whose exclusion pair has first
atom `≥ length`, or the list length when the scan falls off the end. -/
def findSplit (excl : List AtomPair) (m len : ℕ) : ℕ :=
  match (excl.drop m).findIdx? (fun e => decide (len ≤ e.1)) with
  | some k => m + k
  | none => excl.length

/-- `fmatrix[excludepairs_i[:,0]-length0, excludepairs_i[:,1]] = False` with
numpy integer-index semantics: the (possibly negative) local row
`ex0 - length0` wraps modulo the number of rows if within `[-nrows, nrows)`
and raises `IndexError` otherwise. -/
def npLocalRow (nrows length0 : ℕ) (e : AtomPair) : Except String ℕ :=
  let lr : ℤ := (e.1 : ℤ) - (length0 : ℤ)
  if 0 ≤ lr then
    if lr < (nrows : ℤ) then .ok lr.toNat else .error "IndexError"
  else
    if 0 ≤ lr + (nrows : ℤ) then .ok (lr + (nrows : ℤ)).toNat else .error "IndexError"

/-- One paged block (forces.py 1162-1181 and 1188-1196): a `nrows × natoms`
boolean matrix with the listed local cells cleared, `np.triu(., length0+1)`
applied, surviving pairs listed row-major with `length0` added back to the
row index. -/
def blockTriuPairs (natoms length0 nrows : ℕ) (removed : List (ℕ × ℕ)) :
    List AtomPair :=
  (List.range nrows).flatMap fun r =>
    (List.range natoms).filterMap fun c =>
      if length0 + 1 + r ≤ c ∧ ¬ (r, c) ∈ removed then some (length0 + r, c) else none

/-- The `while length <= natoms` loop plus the trailing `if length > natoms`
block of strategy 3 (forces.py 1161-1196).  `readings` is the list of
successive block sizes `int(psutil.virtual_memory().free/singlesize/natoms)`;
the source queries one per iteration, so the embedding reports an error if
they run out while the loop still has rows to emit. -/
def strat3Go (natoms : ℕ) (ex : List AtomPair) :
    List ℕ → ℕ → ℕ → ℕ → List AtomPair → Except String (List AtomPair)
  | readings, length0, len, m, acc =>
    if len ≤ natoms then
      match readings with
      | [] => .error "no memory reading"
      | li :: rest =>
        let l := ex.length
        let split : ℕ × List AtomPair :=
          if l ≠ 0 ∧ m < l - 1 then
            let m2 := findSplit ex m len
            (m2, (ex.drop m).take (m2 - m))
          else (m, [])
        match split.2.mapM (npLocalRow (len - length0) length0) with
        | .error s => .error s
        | .ok rows =>
          let removed := List.zipWith (fun r (e : AtomPair) => (r, e.2)) rows split.2
          strat3Go natoms ex rest len (len + li) split.1
            (acc ++ blockTriuPairs natoms length0 (len - length0) removed)
    else
      if ex.length ≠ 0 ∧ m < ex.length then
        match (ex.drop m).mapM (npLocalRow (natoms - length0) length0) with
        | .error s => .error s
        | .ok rows =>
          let removed := List.zipWith (fun r (e : AtomPair) => (r, e.2)) rows (ex.drop m)
          .ok (acc ++ blockTriuPairs natoms length0 (natoms - length0) removed)
      else .ok (acc ++ blockTriuPairs natoms length0 (natoms - length0) [])

/-- Strategy 3 (forces.py 1140-1197): sort the exclusions lexicographically,
then page the construction by row blocks, appending each block's surviving
pairs to the on-disk table.  The returned list is the content of the table. -/
def strategy3 (natoms : ℕ) (excludepairs : List AtomPair) (readings : List ℕ) :
    Except String (List AtomPair) :=
  match readings with
  | [] => .error "no memory reading"
  | r0 :: rest =>
    let ex := if excludepairs.length ≠ 0 then lexSort excludepairs else excludepairs
    strat3Go natoms ex rest 0 r0 0 []

/-- C3: the claim fails on the code.  With 5 atoms, exclusion list
[(2,1),(3,4)] and disk blocks of 2 rows, the in-memory strategies exclude the
unordered pair with atoms 1 and 2, but the disk-paged strategy clears only
the below-diagonal cell (row 2, column 1), so its table still contains
(1, 2): the three storage strategies do not produce identical membership. -/
theorem c3_strategies_disagree :
    makeIdxFull 5 [(2, 1), (3, 4)] =
      [(0, 1), (0, 2), (0, 3), (0, 4), (1, 3), (1, 4), (2, 3), (2, 4)] ∧
    strategy3 5 [(2, 1), (3, 4)] [2, 2, 2] =
      .ok [(0, 1), (0, 2), (0, 3), (0, 4), (1, 2), (1, 3), (1, 4), (2, 3), (2, 4)] ∧
    (1, 2) ∉ makeIdxFull 5 [(2, 1), (3, 4)] := by
  refine ⟨by decide, ?_, by decide⟩
  rfl

/-! ## Term kernels (forces.py 1335-1445) -/

/-- `evaluate_bonds` (forces.py 1335-1344): harmonic bond energy
`k0 * (dist - d0) ** 2` and force magnitude `2 * k0 * (dist - d0)` per
interaction.  A parameter row is `(k0, d0)`. -/
noncomputable def evaluate_bonds (dist : List ℝ) (bond_params : List (ℝ × ℝ)) :
    List ℝ × List ℝ :=
  (List.zipWith (fun d p => p.1 * (d - p.2) ^ 2) dist bond_params,
   List.zipWith (fun d p => 2 * p.1 * (d - p.2)) dist bond_params)

/-- `cos_theta` of `evaluate_angles` (forces.py 1351-1356): clamped cosine of
the angle between the bond vectors. -/
noncomputable def cosThetaOf (r21 r23 : Vec3) : ℝ :=
  min (max (vdot r23 r21 * (1 / vnorm r21) * (1 / vnorm r23)) (-1)) 1

/-- `sin_theta` of `evaluate_angles` (forces.py 1364). -/
noncomputable def sinThetaOf (r21 r23 : Vec3) : ℝ :=
  Real.sqrt (1 - cosThetaOf r21 r23 * cosThetaOf r21 r23)

open Classical in
/-- The force coefficient of `evaluate_angles` (forces.py 1365-1367): zero
where `sin_theta == 0`, `-2 k0 (theta - theta0) / sin_theta` elsewhere. -/
noncomputable def angleCoef (r21 r23 : Vec3) (k0 theta0 : ℝ) : ℝ :=
  if sinThetaOf r21 r23 = 0 then 0
  else -2 * k0 * (Real.arccos (cosThetaOf r21 r23) - theta0) / sinThetaOf r21 r23

/-- `force0` of `evaluate_angles` (forces.py 1368-1372). -/
noncomputable def angleForce0 (r21 r23 : Vec3) (k0 theta0 : ℝ) : Vec3 :=
  fun i =>
    angleCoef r21 r23 k0 theta0 *
      (cosThetaOf r21 r23 * r21 i * (1 / vnorm r21) - r23 i * (1 / vnorm r23)) *
      (1 / vnorm r21)

/-- `force2` of `evaluate_angles` (forces.py 1373-1377). -/
noncomputable def angleForce2 (r21 r23 : Vec3) (k0 theta0 : ℝ) : Vec3 :=
  fun i =>
    angleCoef r21 r23 k0 theta0 *
      (cosThetaOf r21 r23 * r23 i * (1 / vnorm r23) - r21 i * (1 / vnorm r21)) *
      (1 / vnorm r23)

/-- `force1 = -(force0 + force2)` (forces.py 1378). -/
noncomputable def angleForce1 (r21 r23 : Vec3) (k0 theta0 : ℝ) : Vec3 :=
  -(angleForce0 r21 r23 k0 theta0 + angleForce2 r21 r23 k0 theta0)

/-- `evaluate_angles` (forces.py 1347-1380) for one interaction with
parameter row `(k0, theta0)`: harmonic angle energy and the three force
vectors. -/
noncomputable def evaluate_angles (r21 r23 : Vec3) (k0 theta0 : ℝ) :
    ℝ × (Vec3 × Vec3 × Vec3) :=
  (k0 * (Real.arccos (cosThetaOf r21 r23) - theta0) *
     (Real.arccos (cosThetaOf r21 r23) - theta0),
   (angleForce0 r21 r23 k0 theta0, angleForce1 r21 r23 k0 theta0,
    angleForce2 r21 r23 k0 theta0))

/-- Two-argument arctangent, modelling `torch.atan2` (range `(-pi, pi]`). -/
noncomputable def atan2 (y x : ℝ) : ℝ :=
  if 0 < x then Real.arctan (y / x)
  else if x < 0 then
    (if 0 ≤ y then Real.arctan (y / x) + Real.pi else Real.arctan (y / x) - Real.pi)
  else
    (if 0 < y then Real.pi / 2 else if y < 0 then -(Real.pi / 2) else 0)

/-- The torsion angle `phi` of `evaluate_torsion` (forces.py 1385-1394):
`phi = -atan2(sinPhi, cosPhi)` from the two plane normals. -/
noncomputable def torsionPhi (r12 r23 r34 : Vec3) : ℝ :=
  let crossA := vcross r12 r23
  let crossB := vcross r23 r34
  let crossC := vcross r23 crossA
  let normA := vnorm crossA
  let normB := vnorm crossB
  let normC := vnorm crossC
  let cosPhi := vdot crossA (fun i => crossB i / normB) / normA
  let sinPhi := vdot crossC (fun i => crossB i / normB) / normC
  (-(atan2 sinPhi cosPhi))

open Classical in
/-- The CHARMM angle-difference wrap of `evaluate_torsion` (forces.py
1414-1416): one `+2*pi` correction below `-pi`, then one `-2*pi` correction
above `pi` (the two masks cannot both fire on the same element). -/
noncomputable def charmmWrap (d : ℝ) : ℝ :=
  let d1 := if d < -Real.pi then d + 2 * Real.pi else d
  if d1 > Real.pi then d1 - 2 * Real.pi else d1

open Classical in
/-- Per-torsion energy and force coefficient of `evaluate_torsion` (forces.py
1402-1419) for one parameter row `(k0, phi0, per)`: the AMBER periodic form
when the periodicity is positive, the CHARMM harmonic form with the wrapped
angle difference otherwise. -/
noncomputable def torsionPotCoeff (phi k0 phi0 per : ℝ) : ℝ × ℝ :=
  if 0 < per then
    (k0 * (1 + Real.cos (per * phi - phi0)), -per * k0 * Real.sin (per * phi - phi0))
  else
    (k0 * charmmWrap (phi - phi0) ^ 2, 2 * k0 * charmmWrap (phi - phi0))

/-- The four torsion force vectors of `evaluate_torsion` (forces.py
1423-1443), given the accumulated force coefficient. -/
noncomputable def torsionForces (r12 r23 r34 : Vec3) (coeff : ℝ) :
    Vec3 × Vec3 × Vec3 × Vec3 :=
  let crossA := vcross r12 r23
  let crossB := vcross r23 r34
  let normDelta2 := vnorm r23
  let norm2Delta2 := normDelta2 ^ 2
  let forceFactor0 := (-coeff * normDelta2) / vnorm crossA ^ 2
  let forceFactor1 := vdot r12 r23 / norm2Delta2
  let forceFactor2 := vdot r34 r23 / norm2Delta2
  let forceFactor3 := (coeff * normDelta2) / vnorm crossB ^ 2
  let force0vec : Vec3 := fun i => forceFactor0 * crossA i
  let force3vec : Vec3 := fun i => forceFactor3 * crossB i
  let s : Vec3 := fun i => forceFactor1 * force0vec i - forceFactor2 * force3vec i
  (-force0vec, force0vec + s, force3vec - s, -force3vec)

/-- `evaluate_torsion` (forces.py 1383-1445) specialised to a single torsion
with a single parameter row. -/
noncomputable def evaluate_torsion1 (r12 r23 r34 : Vec3) (k0 phi0 per : ℝ) :
    ℝ × (Vec3 × Vec3 × Vec3 × Vec3) :=
  let pc := torsionPotCoeff (torsionPhi r12 r23 r34) k0 phi0 per
  (pc.1, torsionForces r12 r23 r34 pc.2)

/-! ## Force scattering (`forces[i].index_add_`, forces.py 134-137) -/

/-- `forces[i].index_add_(0, idx, vals)` for one row: add `v` to the vector
stored at index `i`. -/
noncomputable def addAt (f : ℕ → Vec3) (i : ℕ) (v : Vec3) : ℕ → Vec3 :=
  Function.update f i (f i + v)

/-- Fold a list of `(index, vector)` increments into a force buffer. -/
noncomputable def scatterAdd (entries : List (ℕ × Vec3)) (f : ℕ → Vec3) : ℕ → Vec3 :=
  entries.foldl (fun g e => addAt g e.1 e.2) f

/-- The pairwise scatter used by every two-body term (forces.py 134-137 and
the analogous nonbonded sites): `-forcevec` onto the first atom of each pair,
then `+forcevec` onto the second. -/
noncomputable def pairScatter (l : List (AtomPair × Vec3)) (f : ℕ → Vec3) : ℕ → Vec3 :=
  scatterAdd (l.map fun e => (e.1.2, e.2)) (scatterAdd (l.map fun e => (e.1.1, -e.2)) f)

/-- Total force over atoms `0 .. n-1`. -/
noncomputable def totalForce (n : ℕ) (f : ℕ → Vec3) : Vec3 :=
  ∑ i ∈ Finset.range n, f i

/-! ## The bonds branch of `Forces.compute` (forces.py 116-137) -/

/-- Rows `(dist, unitvec, pair, params)` for the bond term, aligned for
mask filtering. -/
noncomputable def bondRows (pos : ℕ → Vec3) (bonds : List AtomPair)
    (bond_params : List (ℝ × ℝ)) (box : Option Vec3) :
    List (ℝ × Vec3 × AtomPair × (ℝ × ℝ)) :=
  List.zipWith (fun c bp => (c.1, c.2.1, bp)) (calculate_distances pos bonds box)
    (bonds.zip bond_params)

/-- The `"bonds"` branch of `Forces.compute` (forces.py 116-137) for one
system: distances via `calculate_distances`, optional `_filter_by_cutoff`,
`evaluate_bonds`, then `forcevec = unitvec * force_coeff` scattered with
`-forcevec` on `pairs[:,0]` and `+forcevec` on `pairs[:,1]`.  Returns the
accumulated bond energy and the updated force buffer. -/
noncomputable def bondsTerm (pos : ℕ → Vec3) (bonds : List AtomPair)
    (bond_params : List (ℝ × ℝ)) (box : Option Vec3) (cutoff : Option ℝ)
    (forces : ℕ → Vec3) : ℝ × (ℕ → Vec3) :=
  let rows := bondRows pos bonds bond_params box
  let rows2 := match cutoff with
    | none => rows
    | some c => maskFilter (fun r => r.1 ≤ c) rows
  let EF := evaluate_bonds (rows2.map (fun r => r.1)) (rows2.map (fun r => r.2.2.2))
  let fvecs := List.zipWith (fun c r => (fun i => c * r.2.1 i : Vec3)) EF.2 rows2
  let pairsv := List.zip (rows2.map (fun r => r.2.2.1)) fvecs
  (EF.1.sum, pairScatter pairsv forces)

/-! ## Verlet neighbor list and cutoff filtering (`Forces.compute`) -/

/-- `_neighbor_verlet_list` (forces.py 79-84) applied to an index chunk: keep
the pairs whose distance is at most `cutoff + delt_r`. -/
noncomputable def verletSelect (pos : ℕ → Vec3) (box : Option Vec3)
    (cutoff dr : ℝ) (chunk : List AtomPair) : List AtomPair :=
  maskFilter (fun p => pairDist pos box p ≤ cutoff + dr) chunk

/-- `_filter_by_cutoff` (forces.py 72-77) applied to an index list: keep the
pairs whose distance is at most `cutoff`. -/
noncomputable def filterByCutoff (pos : ℕ → Vec3) (box : Option Vec3)
    (cutoff : ℝ) (pairs : List AtomPair) : List AtomPair :=
  maskFilter (fun p => pairDist pos box p ≤ cutoff) pairs

/-- The device-resident trajectory-mode rebuild (forces.py 735-740): on a
reconstruction step the whole candidate set is filtered to
`cutoff + delt_r` in one pass, with `delt_r` defaulting to the cutoff. -/
noncomputable def verletRebuildFull (pos : ℕ → Vec3) (box : Option Vec3)
    (cutoff : ℝ) (deltR : Option ℝ) (ava : List AtomPair) : List AtomPair :=
  verletSelect pos box cutoff (deltR.getD cutoff) ava

/-- The chunked trajectory-mode rebuild loop shared by the host-tensor tier
(forces.py 519-541) and the disk tier (forces.py 288-312): `p1, p` delimit
the current chunk `ava_idx[p1:p]`, `readings` are the successive
free-memory-derived chunk sizes, and `nl` is `self.neighborlist`.  The loop
body starts by resetting `self.neighborlist` to an empty tensor before
appending the chunk's survivors, and the tail block (`if p >= len`)
concatenates onto whatever `self.neighborlist` holds (a `None` there is a
`torch.cat` `TypeError`).  `delt_r` is defaulted to the cutoff only inside
the loop body. -/
noncomputable def chunkedGo (pos : ℕ → Vec3) (box : Option Vec3) (cutoff : ℝ)
    (ava : List AtomPair) :
    List ℕ → Option ℝ → ℕ → ℕ → Option (List AtomPair) →
      Except String (List AtomPair)
  | readings, dr, p1, p, nl =>
    if p < ava.length then
      match readings with
      | [] => .error "no memory reading"
      | c :: rest =>
        let d := dr.getD cutoff
        let vl := verletSelect pos box cutoff d ((ava.drop p1).take (p - p1))
        chunkedGo pos box cutoff ava rest (some d) p (p + c) (some vl)
    else
      match dr with
      | none => .error "TypeError: unsupported operand"
      | some d =>
        let vl := verletSelect pos box cutoff d (ava.drop p1)
        match nl with
        | none => .error "TypeError: expected Tensor"
        | some l => .ok (l ++ vl)

/-- The chunked neighbor-list reconstruction (forces.py 518-541 / 287-312):
the first memory reading gives the initial `p`, the rest feed the loop. -/
noncomputable def chunkedVerletRebuild (pos : ℕ → Vec3) (box : Option Vec3)
    (cutoff : ℝ) (deltR : Option ℝ) (ava : List AtomPair)
    (prevNl : Option (List AtomPair)) (readings : List ℕ) :
    Except String (List AtomPair) :=
  match readings with
  | [] => .error "no memory reading"
  | c0 :: rest => chunkedGo pos box cutoff ava rest deltR 0 c0 prevNl

/-- The trajectory-mode neighbor-list step of `Forces.compute` for the
device-resident tier (forces.py 730-746): validate `reconstep` (default 10),
rebuild the cached list on reconstruction steps, fail when no cache exists,
and otherwise return the exact-cutoff filtered pairs together with the
(new) cache. -/
noncomputable def trajNeighborStep (pos : ℕ → Vec3) (box : Option Vec3)
    (cutoff : ℝ) (ava : List AtomPair) (nl : Option (List AtomPair))
    (itstep : ℕ) (reconstep : Option ℕ) (deltR : Option ℝ) :
    Except String (List AtomPair × List AtomPair) :=
  let rs := reconstep.getD 10
  if rs ≤ 1 then .error " reconstep can not less than 2"
  else
    let nl2 := if itstep % rs = 0 then some (verletRebuildFull pos box cutoff deltR ava)
               else nl
    match nl2 with
    | none => .error "itration step should start from 0"
    | some l => .ok (filterByCutoff pos box cutoff l, l)

/-! ## Input guards and constructor validation -/

/-- A float coordinate, tagged so that NaN and the infinities are
distinguishable from finite values. -/
inductive Coord where
  | nan : Coord
  | inf : Coord
  | ninf : Coord
  | val : ℚ → Coord
deriving DecidableEq

/-- `torch.isnan` on one coordinate. -/
def Coord.isnan : Coord → Bool
  | .nan => true
  | _ => false

/-- Finiteness of one coordinate (NaN and the infinities are non-finite). -/
def Coord.isFinite : Coord → Bool
  | .val _ => true
  | _ => false

/-- The entry guards of `Forces.compute` (forces.py 91-98): raise when
explicit forces are off but the positions do not require gradients, then
raise when any coordinate is NaN. -/
def computeGuards (pos : List Coord) (requiresGrad explicitForces : Bool) :
    Except String Unit :=
  if !explicitForces && !requiresGrad then
    .error "The positions passed don't require gradients."
  else if pos.any Coord.isnan then .error "Found NaN coordinates."
  else .ok ()


/-- `str.lower()` as used on the term names (forces.py 46), written over the
character list so that concrete instances reduce. -/
def lowerString (s : String) : String := String.mk (s.data.map Char.toLower)

/-- `Forces.terms` (forces.py 25-27): the fixed term vocabulary. -/
def forcesTerms : List String :=
  ["bonds", "angles", "dihedrals", "impropers", "1-4",
   "electrostatics", "lj", "repulsion", "repulsioncg"]

/-- The term validation of `Forces.__init__` (forces.py 41-54): `None` terms
are rejected, every lower-cased term must be in the vocabulary, and `"1-4"`
requires `"dihedrals"`. -/
def initEnergies (terms : Option (List String)) : Except String (List String) :=
  match terms with
  | none => .error "Set force terms or leave empty brackets []."
  | some ts =>
    let es := ts.map lowerString
    match es.find? (fun e => !(forcesTerms.contains e)) with
    | some et => .error ("Force term " ++ et ++ " is not implemented.")
    | none =>
      if es.contains "1-4" && !(es.contains "dihedrals") then
        .error "You cannot enable 1-4 interactions without enabling dihedrals"
      else .ok es

/-! ## Claims C5 and C6: sequencing and configuration errors -/

/-- C5: in trajectory mode, a compute call on a non-reconstruction step while
no neighbor-list cache exists yet fails with an error instead of returning a
result. -/
theorem c5_missing_cache_error (pos : ℕ → Vec3) (box : Option Vec3) (cutoff : ℝ)
    (ava : List AtomPair) (itstep : ℕ) (reconstep : Option ℕ) (deltR : Option ℝ)
    (h : itstep % reconstep.getD 10 ≠ 0) :
    ∃ msg, trajNeighborStep pos box cutoff ava none itstep reconstep deltR =
      .error msg := by
  unfold trajNeighborStep
  by_cases h1 : reconstep.getD 10 ≤ 1
  · exact ⟨" reconstep can not less than 2", by simp [h1]⟩
  · exact ⟨"itration step should start from 0", by simp [h1, h]⟩

/-- Witness for C5 at a concrete input: step 1 with the default
reconstruction period 10 and no cache. -/
theorem c5_missing_cache_error_witness :
    (1 % (Option.getD (none : Option ℕ) 10) ≠ 0) ∧
    ∃ msg, trajNeighborStep (fun _ => mkVec 0 0 0) none 1 [] none 1 none none =
      .error msg :=
  ⟨by decide, c5_missing_cache_error _ _ _ _ _ _ _ (by decide)⟩

/-- C6: configuration errors are fatal: an unknown term name is rejected by
the constructor, enabling 1-4 without dihedrals is rejected by the
constructor, and a trajectory-mode compute call with a reconstruction period
below 2 is rejected, the period defaulting to 10 when not supplied. -/
theorem c6_config_errors :
    (∀ ts : List String, (∃ t ∈ ts.map lowerString, t ∉ forcesTerms) →
      ∃ msg, initEnergies (some ts) = .error msg) ∧
    (∀ ts : List String, "1-4" ∈ ts.map lowerString →
      "dihedrals" ∉ ts.map lowerString →
      ∃ msg, initEnergies (some ts) = .error msg) ∧
    (∀ (pos : ℕ → Vec3) (box : Option Vec3) (cutoff : ℝ) (ava : List AtomPair)
        (nl : Option (List AtomPair)) (itstep r : ℕ) (deltR : Option ℝ), r ≤ 1 →
      ∃ msg, trajNeighborStep pos box cutoff ava nl itstep (some r) deltR =
        .error msg) ∧
    (∀ (pos : ℕ → Vec3) (box : Option Vec3) (cutoff : ℝ) (ava : List AtomPair)
        (nl : Option (List AtomPair)) (itstep : ℕ) (deltR : Option ℝ),
      trajNeighborStep pos box cutoff ava nl itstep none deltR =
        trajNeighborStep pos box cutoff ava nl itstep (some 10) deltR) := by
  refine ⟨?_, ?_, ?_, ?_⟩
  · intro ts ht
    obtain ⟨t, htmem, htnv⟩ := ht
    cases hfind : (ts.map lowerString).find? (fun e => !(forcesTerms.contains e)) with
    | some et =>
      refine ⟨"Force term " ++ et ++ " is not implemented.", ?_⟩
      simp only [initEnergies]
      rw [hfind]
    | none =>
      exfalso
      have hall := List.find?_eq_none.mp hfind t htmem
      simp at hall
      exact htnv hall
  · intro ts h14 hdi
    cases hfind : (ts.map lowerString).find? (fun e => !(forcesTerms.contains e)) with
    | some et =>
      refine ⟨"Force term " ++ et ++ " is not implemented.", ?_⟩
      simp only [initEnergies]
      rw [hfind]
    | none =>
      refine ⟨"You cannot enable 1-4 interactions without enabling dihedrals", ?_⟩
      have hcond : ((ts.map lowerString).contains "1-4" &&
          !((ts.map lowerString).contains "dihedrals")) = true := by
        simp [h14, hdi]
      simp only [initEnergies]
      rw [hfind, if_pos hcond]
  · intro pos box cutoff ava nl itstep r deltR h
    exact ⟨" reconstep can not less than 2", by simp [trajNeighborStep, h]⟩
  · intro pos box cutoff ava nl itstep deltR
    rfl

/-- Witness for C6 at concrete inputs: the term list ["bogus"], the term list
["1-4"], and a reconstruction period of 1. -/
theorem c6_config_errors_witness :
    (∃ t ∈ ["bogus"].map lowerString, t ∉ forcesTerms) ∧
    (∃ msg, initEnergies (some ["bogus"]) = .error msg) ∧
    ("1-4" ∈ ["1-4"].map lowerString ∧
      "dihedrals" ∉ ["1-4"].map lowerString) ∧
    (∃ msg, initEnergies (some ["1-4"]) = .error msg) ∧
    ((1 : ℕ) ≤ 1 ∧ ∃ msg,
      trajNeighborStep (fun _ => mkVec 0 0 0) none 1 [] none 0 (some 1) none =
        .error msg) :=
  ⟨⟨"bogus", by decide, by decide⟩,
   c6_config_errors.1 _ ⟨"bogus", by decide, by decide⟩,
   ⟨by decide, by decide⟩,
   c6_config_errors.2.1 _ (by decide) (by decide),
   ⟨le_refl 1, c6_config_errors.2.2.1 _ _ _ _ _ _ _ _ (le_refl 1)⟩⟩

/-! ## Claim C7: input guards of `compute` -/

/-- C7 counterexample: an infinite coordinate is non-finite, yet the guards
of `compute` accept it — the code checks only `torch.isnan`, so the claim
that any non-finite (NaN or infinite) coordinate is rejected is false. -/
theorem c7_infinite_coordinate_passes :
    Coord.isFinite Coord.inf = false ∧
    computeGuards [Coord.inf] true true = .ok () :=
  ⟨rfl, rfl⟩

/-- C7 (amended): `compute` fails fatally iff some coordinate is NaN or
explicit analytic forces are not requested while the positions do not require
gradients; an infinite coordinate by itself is not rejected. -/
theorem c7_guards_characterisation (pos : List Coord)
    (requiresGrad explicitForces : Bool) :
    computeGuards pos requiresGrad explicitForces = .ok () ↔
      ((explicitForces || requiresGrad) = true ∧ pos.any Coord.isnan = false) := by
  unfold computeGuards
  cases explicitForces <;> cases requiresGrad <;>
    by_cases h : pos.any Coord.isnan = true <;>
    simp_all

/-! ## Claim C8: the CHARMM torsion wrap -/

/-- C8 counterexample: with torsion angle 0 and reference angle pi the
wrapped difference is exactly -pi, which is not in the half-open interval
(-pi, pi]; the claim that the wrap always lands in (-pi, pi] is false. -/
theorem c8_wrap_boundary_counterexample :
    charmmWrap (0 - Real.pi) = -Real.pi ∧
    charmmWrap (0 - Real.pi) ∉ Set.Ioc (-Real.pi) Real.pi := by
  have hpi := Real.pi_pos
  have h1 : ¬ ((0 : ℝ) - Real.pi < -Real.pi) := by linarith
  have hval : charmmWrap (0 - Real.pi) = -Real.pi := by
    simp only [charmmWrap]
    rw [if_neg h1]
    have h2 : ¬ ((0 : ℝ) - Real.pi > Real.pi) := by linarith
    rw [if_neg h2]
    ring
  refine ⟨hval, ?_⟩
  rw [hval, Set.mem_Ioc]
  intro hmem
  exact lt_irrefl _ hmem.1

/-- C8 (amended): the single plus-or-minus-2-pi correction maps any angle
difference in [-2 pi, 2 pi] into the closed interval [-pi, pi] (the endpoint
-pi is attainable, so the interval is closed rather than half-open, and
differences beyond 2 pi in magnitude are not fully wrapped). -/
theorem c8_wrap_in_closed_interval (d : ℝ) (hlo : -(2 * Real.pi) ≤ d)
    (hhi : d ≤ 2 * Real.pi) :
    -Real.pi ≤ charmmWrap d ∧ charmmWrap d ≤ Real.pi := by
  have hpi := Real.pi_pos
  simp only [charmmWrap]
  split_ifs with h1 h2 h3 <;> constructor <;> linarith

/-- Witness for C8 (amended) at the concrete difference 3 pi / 2. -/
theorem c8_wrap_in_closed_interval_witness :
    (-(2 * Real.pi) ≤ 3 * Real.pi / 2 ∧ 3 * Real.pi / 2 ≤ 2 * Real.pi) ∧
    (-Real.pi ≤ charmmWrap (3 * Real.pi / 2) ∧
      charmmWrap (3 * Real.pi / 2) ≤ Real.pi) := by
  have hpi := Real.pi_pos
  have h1 : -(2 * Real.pi) ≤ 3 * Real.pi / 2 := by linarith
  have h2 : 3 * Real.pi / 2 ≤ 2 * Real.pi := by linarith
  exact ⟨⟨h1, h2⟩, c8_wrap_in_closed_interval _ h1 h2⟩

/-! ## Claim C9: the angle kernel's sin-theta guard -/

/-- C9: whenever the angle kernel's `sin_theta` vanishes (the clamped cosine
is plus or minus one), the force coefficient is special-cased to zero instead
of dividing by zero, and all three angle force vectors are zero (hence
finite). -/
theorem c9_sin_zero_guard (r21 r23 : Vec3) (k0 theta0 : ℝ)
    (h : sinThetaOf r21 r23 = 0) :
    angleCoef r21 r23 k0 theta0 = 0 ∧
    angleForce0 r21 r23 k0 theta0 = 0 ∧
    angleForce1 r21 r23 k0 theta0 = 0 ∧
    angleForce2 r21 r23 k0 theta0 = 0 := by
  have hc : angleCoef r21 r23 k0 theta0 = 0 := by simp [angleCoef, h]
  have h0 : angleForce0 r21 r23 k0 theta0 = 0 := by
    funext i
    simp [angleForce0, hc]
  have h2 : angleForce2 r21 r23 k0 theta0 = 0 := by
    funext i
    simp [angleForce2, hc]
  refine ⟨hc, h0, ?_, h2⟩
  rw [angleForce1, h0, h2]
  simp

/-- Witness for C9 at collinear bond vectors (1,0,0), (1,0,0), where the
clamped cosine is 1 and `sin_theta` is 0. -/
theorem c9_sin_zero_guard_witness :
    sinThetaOf (mkVec 1 0 0) (mkVec 1 0 0) = 0 ∧
    (angleCoef (mkVec 1 0 0) (mkVec 1 0 0) 100 0 = 0 ∧
     angleForce0 (mkVec 1 0 0) (mkVec 1 0 0) 100 0 = 0 ∧
     angleForce1 (mkVec 1 0 0) (mkVec 1 0 0) 100 0 = 0 ∧
     angleForce2 (mkVec 1 0 0) (mkVec 1 0 0) 100 0 = 0) := by
  have hdot : vdot (mkVec 1 0 0) (mkVec 1 0 0) = 1 := by
    simp [vdot, mkVec]
  have hnorm : vnorm (mkVec 1 0 0) = 1 := by
    have : (mkVec 1 0 0 : Vec3) 0 * mkVec 1 0 0 0 + mkVec 1 0 0 1 * mkVec 1 0 0 1 +
        mkVec 1 0 0 2 * mkVec 1 0 0 2 = 1 := by simp [mkVec]
    rw [vnorm, this, Real.sqrt_one]
  have hcos : cosThetaOf (mkVec 1 0 0) (mkVec 1 0 0) = 1 := by
    rw [cosThetaOf, hdot, hnorm]
    norm_num
  have hsin : sinThetaOf (mkVec 1 0 0) (mkVec 1 0 0) = 0 := by
    rw [sinThetaOf, hcos]
    norm_num
  exact ⟨hsin, c9_sin_zero_guard _ _ 100 0 hsin⟩

/-! ## Claim C10: per-term force conservation -/

lemma scatterAdd_cons (e : ℕ × Vec3) (es : List (ℕ × Vec3)) (f : ℕ → Vec3) :
    scatterAdd (e :: es) f = scatterAdd es (addAt f e.1 e.2) := rfl

lemma totalForce_addAt (f : ℕ → Vec3) (i : ℕ) (v : Vec3) (n : ℕ) (h : i < n) :
    totalForce n (addAt f i v) = totalForce n f + v := by
  unfold totalForce addAt
  rw [Finset.sum_update_of_mem (Finset.mem_range.mpr h)]
  rw [Finset.sdiff_singleton_eq_erase]
  rw [← Finset.sum_erase_add (Finset.range n) f (Finset.mem_range.mpr h)]
  abel

lemma totalForce_scatterAdd (n : ℕ) (entries : List (ℕ × Vec3)) :
    ∀ f : ℕ → Vec3, (∀ e ∈ entries, e.1 < n) →
      totalForce n (scatterAdd entries f) =
        totalForce n f + (entries.map Prod.snd).sum := by
  induction entries with
  | nil => intro f _; simp [scatterAdd]
  | cons e es ih =>
    intro f h
    have he : e.1 < n := (h e (List.mem_cons_self e es))
    have hes : ∀ x ∈ es, x.1 < n := fun x hx => h x (List.mem_cons_of_mem _ hx)
    rw [scatterAdd_cons, ih (addAt f e.1 e.2) hes, totalForce_addAt f e.1 e.2 n he]
    simp only [List.map_cons, List.sum_cons]
    abel

lemma sum_map_neg_snd (l : List (AtomPair × Vec3)) :
    ((l.map fun e => (-e.2 : Vec3)).sum) = -((l.map fun e => e.2).sum) := by
  induction l with
  | nil => simp
  | cons e es ih => simp only [List.map_cons, List.sum_cons, ih]; abel

/-- C10: every interaction's scattered force vectors sum to zero: the
pairwise scatter adds `-f` to one atom and `+f` to the other so the total
force over the buffer is unchanged, the angle kernel's three forces sum to
zero because `force1 = -(force0 + force2)`, and the torsion kernel's four
forces sum to zero. -/
theorem c10_forces_sum_zero :
    (∀ (l : List (AtomPair × Vec3)) (f : ℕ → Vec3) (n : ℕ),
      (∀ e ∈ l, e.1.1 < n ∧ e.1.2 < n) →
      totalForce n (pairScatter l f) = totalForce n f) ∧
    (∀ (r21 r23 : Vec3) (k0 theta0 : ℝ),
      angleForce0 r21 r23 k0 theta0 + angleForce1 r21 r23 k0 theta0 +
        angleForce2 r21 r23 k0 theta0 = 0) ∧
    (∀ (r12 r23 r34 : Vec3) (coeff : ℝ),
      (torsionForces r12 r23 r34 coeff).1 + (torsionForces r12 r23 r34 coeff).2.1 +
        (torsionForces r12 r23 r34 coeff).2.2.1 +
        (torsionForces r12 r23 r34 coeff).2.2.2 = 0) := by
  refine ⟨?_, ?_, ?_⟩
  · intro l f n h
    have h1 : ∀ e ∈ l.map (fun e => (e.1.1, -e.2)), e.1 < n := by
      intro x hx
      obtain ⟨e, he, rfl⟩ := List.mem_map.mp hx
      exact (h e he).1
    have h2 : ∀ e ∈ l.map (fun e => (e.1.2, e.2)), e.1 < n := by
      intro x hx
      obtain ⟨e, he, rfl⟩ := List.mem_map.mp hx
      exact (h e he).2
    unfold pairScatter
    rw [totalForce_scatterAdd n _ _ h2, totalForce_scatterAdd n _ _ h1]
    simp only [List.map_map]
    have hneg : ((l.map fun e => ((fun e => (e.1.1, -e.2)) e).snd).sum : Vec3) =
        -((l.map fun e => e.2).sum) := by
      simpa using sum_map_neg_snd l
    have hpos : ((l.map fun e => ((fun e => (e.1.2, e.2)) e).snd).sum : Vec3) =
        ((l.map fun e => e.2).sum) := by
      simp [Function.comp]
    rw [show (Prod.snd ∘ fun e : AtomPair × Vec3 => (e.1.1, -e.2)) =
        (fun e : AtomPair × Vec3 => (-e.2 : Vec3)) from rfl]
    rw [show (Prod.snd ∘ fun e : AtomPair × Vec3 => (e.1.2, e.2)) =
        (fun e : AtomPair × Vec3 => (e.2 : Vec3)) from rfl]
    rw [sum_map_neg_snd l]
    abel
  · intro r21 r23 k0 theta0
    rw [angleForce1]
    abel
  · intro r12 r23 r34 coeff
    simp only [torsionForces]
    abel

/-- Witness for C10 at a concrete scatter: one pair (0,1) with force
(1,2,3) over a two-atom buffer. -/
theorem c10_forces_sum_zero_witness :
    (∀ e ∈ [(((0 : ℕ), (1 : ℕ)), mkVec 1 2 3)], e.1.1 < 2 ∧ e.1.2 < 2) ∧
    totalForce 2 (pairScatter [((0, 1), mkVec 1 2 3)] (fun _ => mkVec 0 0 0)) =
      totalForce 2 (fun _ => mkVec 0 0 0) := by
  have h : ∀ e ∈ [(((0 : ℕ), (1 : ℕ)), mkVec 1 2 3)], e.1.1 < 2 ∧ e.1.2 < 2 := by
    intro e he
    rw [List.mem_singleton] at he
    subst he
    exact ⟨by norm_num, by norm_num⟩
  exact ⟨h, c10_forces_sum_zero.1 _ _ _ h⟩

/-! ## Claim C4: chunked neighbor-list reconstruction -/

@[simp] lemma mkVec_zero (a b c : ℝ) : mkVec a b c 0 = a := rfl

@[simp] lemma mkVec_one (a b c : ℝ) : mkVec a b c 1 = b := rfl

@[simp] lemma mkVec_two (a b c : ℝ) : mkVec a b c 2 = c := rfl

lemma wrap_dist_none (d : Vec3) : wrap_dist d none = d := by
  simp [wrap_dist, boxNoneOrZero]

lemma mkVec_sub (a b c d e f : ℝ) :
    (mkVec a b c - mkVec d e f : Vec3) = mkVec (a - d) (b - e) (c - f) := by
  funext i
  rw [sub_vec_apply]
  unfold mkVec
  split_ifs <;> rfl

lemma vnorm_mkVec_axis (a : ℝ) : vnorm (mkVec a 0 0) = |a| := by
  rw [vnorm, mkVec_zero, mkVec_one, mkVec_two]
  rw [show a * a + 0 * 0 + 0 * 0 = a * a by ring]
  exact Real.sqrt_mul_self_eq_abs a

/-- Atoms placed on the x-axis at integer coordinates (test input). -/
noncomputable def posLine : ℕ → Vec3 := fun n => mkVec (n : ℝ) 0 0

lemma pairDist_posLine (p q : ℕ) :
    pairDist posLine none (p, q) = |(p : ℝ) - (q : ℝ)| := by
  rw [pairDist, wrap_dist_none]
  rw [show posLine p = mkVec (p : ℝ) 0 0 from rfl,
      show posLine q = mkVec (q : ℝ) 0 0 from rfl]
  rw [mkVec_sub]
  rw [show ((0 : ℝ) - 0) = 0 by ring]
  exact vnorm_mkVec_axis _

lemma chunkedGo_cons (pos : ℕ → Vec3) (box : Option Vec3) (cutoff : ℝ)
    (ava : List AtomPair) (c : ℕ) (rest : List ℕ) (dr : Option ℝ) (p1 p : ℕ)
    (nl : Option (List AtomPair)) :
    chunkedGo pos box cutoff ava (c :: rest) dr p1 p nl =
      if p < ava.length then
        chunkedGo pos box cutoff ava rest (some (dr.getD cutoff)) p (p + c)
          (some (verletSelect pos box cutoff (dr.getD cutoff)
            ((ava.drop p1).take (p - p1))))
      else
        match dr with
        | none => .error "TypeError: unsupported operand"
        | some d =>
          match nl with
          | none => .error "TypeError: expected Tensor"
          | some l => .ok (l ++ verletSelect pos box cutoff d (ava.drop p1)) := rfl

lemma chunkedGo_nil (pos : ℕ → Vec3) (box : Option Vec3) (cutoff : ℝ)
    (ava : List AtomPair) (dr : Option ℝ) (p1 p : ℕ)
    (nl : Option (List AtomPair)) :
    chunkedGo pos box cutoff ava [] dr p1 p nl =
      if p < ava.length then .error "no memory reading"
      else
        match dr with
        | none => .error "TypeError: unsupported operand"
        | some d =>
          match nl with
          | none => .error "TypeError: expected Tensor"
          | some l => .ok (l ++ verletSelect pos box cutoff d (ava.drop p1)) := rfl

lemma chunkedGo_step_lt {pos : ℕ → Vec3} {box : Option Vec3} {cutoff : ℝ}
    {ava : List AtomPair} {c : ℕ} {rest : List ℕ} {dr : Option ℝ} {p1 p : ℕ}
    {nl : Option (List AtomPair)} (h : p < ava.length) :
    chunkedGo pos box cutoff ava (c :: rest) dr p1 p nl =
      chunkedGo pos box cutoff ava rest (some (dr.getD cutoff)) p (p + c)
        (some (verletSelect pos box cutoff (dr.getD cutoff)
          ((ava.drop p1).take (p - p1)))) := by
  rw [chunkedGo_cons, if_pos h]

lemma chunkedGo_step_ge_nil {pos : ℕ → Vec3} {box : Option Vec3} {cutoff : ℝ}
    {ava : List AtomPair} {d : ℝ} {p1 p : ℕ}
    {l : List AtomPair} (h : ¬ p < ava.length) :
    chunkedGo pos box cutoff ava [] (some d) p1 p (some l) =
      .ok (l ++ verletSelect pos box cutoff d (ava.drop p1)) := by
  rw [chunkedGo_nil, if_neg h]


/-- C4 fails on the code: with candidate pairs (0,1),(0,2),(1,2) on the
x-axis at coordinates 0,1,2, cutoff 10, default skin, and chunk size 1 (three
chunks), a reconstruction step through the chunked tier rebuilds the cache as
[(0,2),(1,2)] — the loop resets the cache at the start of every iteration, so
all chunks before the last two are dropped — whereas the set of candidate
pairs within cutoff + skin (computed by the unchunked device tier) is all
three pairs.  Pair (0,1) is within the skin radius but missing from the
rebuilt cache. -/
theorem c4_chunked_rebuild_drops_pairs :
    chunkedVerletRebuild posLine none 10 none [(0, 1), (0, 2), (1, 2)] (some [])
      [1, 1, 1] = .ok [(0, 2), (1, 2)] ∧
    verletRebuildFull posLine none 10 none [(0, 1), (0, 2), (1, 2)] =
      [(0, 1), (0, 2), (1, 2)] ∧
    (0, 1) ∉ [((0 : ℕ), (2 : ℕ)), (1, 2)] := by
  have k01 : pairDist posLine none (0, 1) ≤ 10 + 10 := by
    rw [pairDist_posLine]; norm_num
  have k02 : pairDist posLine none (0, 2) ≤ 10 + 10 := by
    rw [pairDist_posLine]; norm_num
  have k12 : pairDist posLine none (1, 2) ≤ 10 + 10 := by
    rw [pairDist_posLine]; norm_num
  have v1 : verletSelect posLine none 10 10 [(0, 1)] = [(0, 1)] := by
    rw [verletSelect,
      maskFilter_cons_pos (fun p => pairDist posLine none p ≤ 10 + 10) (0, 1) [] k01,
      maskFilter_nil]
  have v2 : verletSelect posLine none 10 10 [(0, 2)] = [(0, 2)] := by
    rw [verletSelect,
      maskFilter_cons_pos (fun p => pairDist posLine none p ≤ 10 + 10) (0, 2) [] k02,
      maskFilter_nil]
  have v3 : verletSelect posLine none 10 10 [(1, 2)] = [(1, 2)] := by
    rw [verletSelect,
      maskFilter_cons_pos (fun p => pairDist posLine none p ≤ 10 + 10) (1, 2)
        [] k12,
      maskFilter_nil]
  refine ⟨?_, ?_, by decide⟩
  · rw [chunkedVerletRebuild]
    rw [chunkedGo_step_lt (by norm_num)]
    norm_num [Option.getD]
    rw [v1]
    rw [chunkedGo_step_lt (by norm_num)]
    norm_num [Option.getD]
    rw [v2]
    rw [chunkedGo_step_ge_nil (by norm_num)]
    norm_num
    rw [v3]
  · rw [verletRebuildFull]
    simp only [Option.getD]
    rw [verletSelect,
      maskFilter_cons_pos (fun p => pairDist posLine none p ≤ 10 + 10) (0, 1)
        [(0, 2), (1, 2)] k01,
      maskFilter_cons_pos (fun p => pairDist posLine none p ≤ 10 + 10) (0, 2)
        [(1, 2)] k02,
      maskFilter_cons_pos (fun p => pairDist posLine none p ≤ 10 + 10) (1, 2)
        [] k12,
      maskFilter_nil]

/-! ## Claim C2: two-atom harmonic bond end to end -/

lemma calculate_distances_cons (pos : ℕ → Vec3) (p : AtomPair)
    (idx : List AtomPair) (box : Option Vec3) :
    calculate_distances pos (p :: idx) box =
      (vnorm (wrap_dist (pos p.1 - pos p.2) box),
       fun i => wrap_dist (pos p.1 - pos p.2) box i /
         vnorm (wrap_dist (pos p.1 - pos p.2) box),
       wrap_dist (pos p.1 - pos p.2) box) :: calculate_distances pos idx box := rfl

lemma calculate_distances_nil (pos : ℕ → Vec3) (box : Option Vec3) :
    calculate_distances pos [] box = [] := rfl

/-- The two-atom test system of the spec: atom 0 at the origin, atom 1 at
(1.5, 0, 0). -/
noncomputable def pos2 : ℕ → Vec3 :=
  fun n => if n = 0 then mkVec 0 0 0 else mkVec (3 / 2) 0 0

lemma pairScatter_single_apply0 (v : Vec3) (f : ℕ → Vec3) :
    pairScatter [((0, 1), v)] f 0 = f 0 + -v := by
  simp [pairScatter, scatterAdd, addAt, Function.update]

lemma pairScatter_single_apply1 (v : Vec3) (f : ℕ → Vec3) :
    pairScatter [((0, 1), v)] f 1 = f 1 + v := by
  simp [pairScatter, scatterAdd, addAt, Function.update]

lemma bondsTerm_twoAtom_eval :
    bondsTerm pos2 [(0, 1)] [(100, 1)] none none (fun _ => mkVec 0 0 0) =
      (25, pairScatter [((0, 1), mkVec (-100) 0 0)] (fun _ => mkVec 0 0 0)) := by
  have hraw : pos2 0 - pos2 1 = mkVec (-(3 / 2 : ℝ)) 0 0 := by
    show mkVec 0 0 0 - mkVec (3 / 2 : ℝ) 0 0 = _
    rw [mkVec_sub]
    norm_num
  have hnorm : vnorm (mkVec (-(3 / 2 : ℝ)) 0 0) = 3 / 2 := by
    rw [vnorm_mkVec_axis, abs_neg, abs_of_nonneg (by norm_num : (0 : ℝ) ≤ 3 / 2)]
  have hfv : (fun i => 2 * (100 : ℝ) * ((3 / 2 : ℝ) - 1) *
      (mkVec (-(3 / 2 : ℝ)) 0 0 i / (3 / 2 : ℝ))) =
      (mkVec (-100) 0 0 : Vec3) := by
    funext i
    unfold mkVec
    split_ifs <;> norm_num
  simp only [bondsTerm, bondRows, evaluate_bonds, List.zip, List.zipWith,
    List.map, List.sum_cons, List.sum_nil]
  rw [wrap_dist_none, hraw, hnorm]
  rw [hfv]
  norm_num

/-- C2 counterexample: at the claimed input (two atoms at (0,0,0) and
(1.5,0,0), one bond with k=100, r0=1, no box, no cutoff, explicit forces),
the engine writes (100,0,0) onto atom 0, not the (-100,0,0) the claim
states. -/
theorem c2_force_sign_counterexample :
    (bondsTerm pos2 [(0, 1)] [(100, 1)] none none (fun _ => mkVec 0 0 0)).2 0 =
      mkVec 100 0 0 ∧
    (bondsTerm pos2 [(0, 1)] [(100, 1)] none none (fun _ => mkVec 0 0 0)).2 0 ≠
      mkVec (-100) 0 0 := by
  have h0 : (bondsTerm pos2 [(0, 1)] [(100, 1)] none none
      (fun _ => mkVec 0 0 0)).2 0 = mkVec 100 0 0 := by
    rw [bondsTerm_twoAtom_eval]
    rw [show (25, pairScatter [((0, 1), mkVec (-100) 0 0)]
        (fun _ => mkVec 0 0 0)).2 =
      pairScatter [((0, 1), mkVec (-100) 0 0)] (fun _ => mkVec 0 0 0) from rfl]
    rw [pairScatter_single_apply0]
    funext i
    rw [add_vec_apply, neg_vec_apply]
    unfold mkVec
    split_ifs <;> norm_num
  refine ⟨h0, ?_⟩
  rw [h0]
  intro hcontra
  have := congrFun hcontra 0
  rw [mkVec_zero, mkVec_zero] at this
  norm_num at this

/-- C2 (amended): at that input the bonds energy is exactly
100 * (0.5)^2 = 25 and the engine writes force (100,0,0) onto atom 0 and
(-100,0,0) onto atom 1 (the bond is stretched, so atom 0 is pulled towards
atom 1; the claim has the two force vectors swapped). -/
theorem c2_bond_energy_and_forces :
    (bondsTerm pos2 [(0, 1)] [(100, 1)] none none (fun _ => mkVec 0 0 0)).1 =
      25 ∧
    (bondsTerm pos2 [(0, 1)] [(100, 1)] none none (fun _ => mkVec 0 0 0)).2 0 =
      mkVec 100 0 0 ∧
    (bondsTerm pos2 [(0, 1)] [(100, 1)] none none (fun _ => mkVec 0 0 0)).2 1 =
      mkVec (-100) 0 0 := by
  refine ⟨by rw [bondsTerm_twoAtom_eval], ?_, ?_⟩
  · rw [bondsTerm_twoAtom_eval]
    rw [show (25, pairScatter [((0, 1), mkVec (-100) 0 0)]
        (fun _ => mkVec 0 0 0)).2 =
      pairScatter [((0, 1), mkVec (-100) 0 0)] (fun _ => mkVec 0 0 0) from rfl]
    rw [pairScatter_single_apply0]
    funext i
    rw [add_vec_apply, neg_vec_apply]
    unfold mkVec
    split_ifs <;> norm_num
  · rw [bondsTerm_twoAtom_eval]
    rw [show (25, pairScatter [((0, 1), mkVec (-100) 0 0)]
        (fun _ => mkVec 0 0 0)).2 =
      pairScatter [((0, 1), mkVec (-100) 0 0)] (fun _ => mkVec 0 0 0) from rfl]
    rw [pairScatter_single_apply1]
    funext i
    rw [add_vec_apply]
    unfold mkVec
    split_ifs <;> norm_num
